import Mathlib

/-!
# Verification of the reliable-mail delivery pipeline

A shallow embedding of `src/workers/emailWorker.ts` (and the schema in
`src/db/schema.sql`) of the `reliable-mail` repository, together with proofs
of the spec's claims about the delivery pipeline: the atomic job claim, the
success commit (billing insert + status update), the failure/retry state
machine, and the webhook notifier's bounded retry loop.

Conventions of the embedding:
- SQL rows become Lean structures; the `emails` table (primary key `id`)
  becomes a map `Nat → Option EmailRow`; the append-only `email_usage`
  table becomes a `List UsageRecord` (its `UNIQUE(email_id)` constraint is
  what the commit's `ON CONFLICT DO NOTHING` leans on, so the insert is
  modelled with that conflict check).
- Each `db.query` statement (and the whole `BEGIN ... COMMIT` transaction
  of the success commit) is an atomic function on the database state.
- JavaScript falsiness of `emailId` (a number) is `= 0`; falsiness of an
  optional string (`response.data?.id`, `webhook_url`) is absence or `""`.
- Outcomes of external calls (the Resend provider, `fetch`) are parameters
  of the embedded functions; timestamps (`now()`) are parameters too.
-/

/-- Email lifecycle status, the values the worker reads and writes in the
`status` column. -/
inductive Status where
  | pending
  | processing
  | sent
  | retrying
  | failed
deriving DecidableEq, Repr

/-- One row of the `emails` table (schema.sql); the primary key `id` is the
key of the enclosing map, not a field. -/
structure EmailRow where
  account_id : Nat
  idempotency_key : String
  to_email : String
  from_email : String
  subject : String
  html : Option String
  text : Option String
  status : Status
  attempts : Nat
  last_error : Option String
  provider_message_id : Option String
  sent_at : Option Nat
deriving DecidableEq, Repr

/-- One row of the append-only `email_usage` billing table. -/
structure UsageRecord where
  account_id : Nat
  email_id : Nat
  month : Nat
deriving DecidableEq, Repr

/-- The ledger-store state the worker touches: the `emails` table keyed by
id and the `email_usage` ledger. -/
structure DBState where
  emails : Nat → Option EmailRow
  usage : List UsageRecord

/-- Point update of one `emails` row (an `UPDATE ... WHERE id = $1`). -/
def setEmail (s : DBState) (id : Nat) (e : EmailRow) : DBState :=
  { s with emails := fun j => if j = id then some e else s.emails j }

/-- Step 1 of the worker: the atomic claim
`UPDATE emails SET status = 'processing' WHERE id = $1 AND status IN
('pending', 'retrying') RETURNING *`. Returns the updated state and the
returned row (`none` models `rowCount === 0`). -/
def claimEmail (s : DBState) (emailId : Nat) : DBState × Option EmailRow :=
  match s.emails emailId with
  | none => (s, none)
  | some e =>
    if e.status = Status.pending ∨ e.status = Status.retrying then
      let e2 := { e with status := Status.processing }
      (setEmail s emailId e2, some e2)
    else (s, none)

/-- Whether a usage record for `emailId` exists (the `UNIQUE(email_id)`
constraint of `email_usage` is on `email_id` alone). -/
def usageExists (s : DBState) (emailId : Nat) : Bool :=
  s.usage.any (fun u => u.email_id = emailId)

/-- Number of usage rows for one email id. -/
def countUsage (s : DBState) (emailId : Nat) : Nat :=
  (s.usage.filter (fun u => u.email_id = emailId)).length

/-- `INSERT INTO email_usage ... ON CONFLICT DO NOTHING`: appends a row
unless the `UNIQUE(email_id)` constraint would be violated. -/
def insertUsage (s : DBState) (accId emailId month : Nat) : DBState :=
  if usageExists s emailId then s
  else { s with usage := s.usage ++ [⟨accId, emailId, month⟩] }

/-- Step 3 of the worker: the success commit, one transaction doing the
conflict-tolerant `email_usage` insert and then
`UPDATE emails SET status = 'sent', provider_message_id = $3,
sent_at = now() WHERE id = $2`. `month` is
`date_trunc('month', now())::date` and `t` is `now()`. -/
def successCommit (s : DBState) (accId emailId : Nat) (messageId : String)
    (month t : Nat) : DBState :=
  let s1 := insertUsage s accId emailId month
  match s1.emails emailId with
  | none => s1
  | some e =>
      setEmail s1 emailId
        { e with status := Status.sent
                 provider_message_id := some messageId
                 sent_at := some t }

/-- The retry bound of the worker (`attempts >= 5` is terminal). -/
def MAX_ATTEMPTS : Nat := 5

/-- Step 4 of the worker: the failure bookkeeping
`UPDATE emails SET attempts = $2, status = $3, last_error = $4
WHERE id = $1`. -/
def failureUpdate (s : DBState) (emailId attempts : Nat) (st : Status)
    (msg : String) : DBState :=
  match s.emails emailId with
  | none => s
  | some e =>
      setEmail s emailId
        { e with attempts := attempts, status := st, last_error := some msg }

/-- Outcome of `resend.emails.send`: the promise resolves with
`response.data?.id` (absent when `data` is null or has no id), or rejects
with an error message. -/
inductive ProviderResponse where
  | resolved (dataId : Option String)
  | rejected (msg : String)
deriving DecidableEq, Repr

/-- The worker's acceptance check `if (!response.data?.id) throw new Error
("No message ID returned from Resend")`: an id that is absent or `""` (both
falsy) is a failure; a rejected promise carries its own message. -/
def acceptedId : ProviderResponse → Except String String
  | ProviderResponse.resolved (some id) =>
      if id = "" then Except.error "No message ID returned from Resend"
      else Except.ok id
  | ProviderResponse.resolved none =>
      Except.error "No message ID returned from Resend"
  | ProviderResponse.rejected msg => Except.error msg

/-- Outcome of the success-commit transaction round-trip: it either commits
(all statements applied) or aborts with an error and no effect. -/
inductive CommitOutcome where
  | committed
  | aborted (msg : String)
deriving DecidableEq, Repr

/-- What one worker invocation signals to BullMQ: a clean return (done, do
not redeliver) or a thrown error (redeliver per backoff schedule). -/
inductive PipelineResult where
  | cleanReturn
  | thrown (msg : String)
deriving DecidableEq, Repr

/-- The worker's `catch` block: `attempts = (email.attempts || 0) + 1`,
`terminal = attempts >= 5`, the failure bookkeeping update, the terminal
`email.failed` webhook (its own failure caught and only logged), and
`throw err` re-raising the original error. `e` is the claimed row
snapshot; `notifyFailed` is the outcome of the terminal webhook. -/
def failurePath (s : DBState) (e : EmailRow) (emailId : Nat) (msg : String)
    (notifyFailed : Except String Unit) : DBState × PipelineResult :=
  let attempts := e.attempts + 1
  let st := if MAX_ATTEMPTS ≤ attempts then Status.failed else Status.retrying
  let s2 := failureUpdate s emailId attempts st msg
  if MAX_ATTEMPTS ≤ attempts then
    match notifyFailed with
    | Except.ok _ => (s2, PipelineResult.thrown msg)
    | Except.error _ => (s2, PipelineResult.thrown msg)
  else (s2, PipelineResult.thrown msg)

/-- One full worker invocation on a job `{ emailId }`: the falsy-id guard,
the atomic claim (a miss logs and returns cleanly), the provider send and
id check, the success commit followed by the caught `email.sent` webhook,
and the failure path on any send/commit error. `notifySent` and
`notifyFailed` are the outcomes of the two webhook notifications; `month`
and `t` stand for `now()`. -/
def processJob (s : DBState) (emailId : Nat) (prov : ProviderResponse)
    (commit : CommitOutcome) (notifySent notifyFailed : Except String Unit)
    (month t : Nat) : DBState × PipelineResult :=
  if emailId = 0 then (s, PipelineResult.thrown "No emailId in job data")
  else
    match claimEmail s emailId with
    | (s1, none) => (s1, PipelineResult.cleanReturn)
    | (s1, some email) =>
      match acceptedId prov with
      | Except.ok messageId =>
        match commit with
        | CommitOutcome.committed =>
          let s2 := successCommit s1 email.account_id emailId messageId month t
          match notifySent with
          | Except.ok _ => (s2, PipelineResult.cleanReturn)
          | Except.error _ => (s2, PipelineResult.cleanReturn)
        | CommitOutcome.aborted msg => failurePath s1 email emailId msg notifyFailed
      | Except.error msg => failurePath s1 email emailId msg notifyFailed

/-! ## Webhook notifier (`postWebhook`, `sendWebhookWithRetry`,
`notifyWebhook`) -/

/-- The fixed backoff delays of the notifier retry loop. -/
def WEBHOOK_RETRY_DELAYS_MS : List Nat := [1000, 2000, 4000]

/-- The per-attempt timeout the `AbortController` enforces on `fetch`. -/
def WEBHOOK_TIMEOUT_MS : Nat := 5000

/-- Outcome of one `fetch` of the webhook URL: an HTTP response with a
status code, or a rejection (network error, or the abort fired by the
`WEBHOOK_TIMEOUT_MS` timer). -/
inductive FetchOutcome where
  | response (status : Nat)
  | failure (msg : String)
deriving DecidableEq, Repr

/-- `Response.ok` of the fetch API: status in the range 200–299. -/
def responseOk (status : Nat) : Bool := 200 ≤ status && status < 300

/-- `postWebhook`: succeeds iff the fetch resolved with `response.ok`;
a non-2xx status throws `Webhook responded <status>`, a transport
failure/timeout propagates its own message. -/
def postWebhook (o : FetchOutcome) : Except String Unit :=
  match o with
  | FetchOutcome.response status =>
      if responseOk status then Except.ok ()
      else Except.error ("Webhook responded " ++ toString status)
  | FetchOutcome.failure msg => Except.error msg

/-- The loop body of `sendWebhookWithRetry` from loop index `attempt`:
try `postWebhook`; on error re-throw when `attempt >=
WEBHOOK_RETRY_DELAYS_MS.length`, else sleep `WEBHOOK_RETRY_DELAYS_MS
[attempt]` and continue. `outcomes n` is the fetch outcome of attempt `n`;
the second component records the delays slept, in order. -/
def sendWebhookRetryFrom (outcomes : Nat → FetchOutcome) (attempt : Nat) :
    Except String Unit × List Nat :=
  match postWebhook (outcomes attempt) with
  | Except.ok _ => (Except.ok (), [])
  | Except.error e =>
    if WEBHOOK_RETRY_DELAYS_MS.length ≤ attempt then (Except.error e, [])
    else
      let d := WEBHOOK_RETRY_DELAYS_MS.getD attempt 0
      let r := sendWebhookRetryFrom outcomes (attempt + 1)
      (r.1, d :: r.2)
termination_by WEBHOOK_RETRY_DELAYS_MS.length - attempt
decreasing_by simp only [WEBHOOK_RETRY_DELAYS_MS, List.length] at *; omega

/-- `sendWebhookWithRetry`: the loop started at attempt 0. -/
def sendWebhookWithRetry (outcomes : Nat → FetchOutcome) :
    Except String Unit × List Nat :=
  sendWebhookRetryFrom outcomes 0

/-- The part of an `accounts` row the notifier reads. -/
structure Account where
  webhook_url : Option String
deriving DecidableEq, Repr

/-- `notifyWebhook`: look up `webhook_url` for the account; a missing row,
a NULL url, or an empty-string url (all falsy) are a successful no-op with
no fetch attempt; otherwise run the retry loop. -/
def notifyWebhook (accounts : Nat → Option Account) (accountId : Nat)
    (outcomes : Nat → FetchOutcome) : Except String Unit × List Nat :=
  match accounts accountId with
  | none => (Except.ok (), [])
  | some a =>
    match a.webhook_url with
    | none => (Except.ok (), [])
    | some url =>
        if url = "" then (Except.ok (), [])
        else sendWebhookWithRetry outcomes

/-! ## The per-email step machine

Claims C1 and C5 quantify over "any sequence of pipeline operations" on a
single email. The machine below is the worker restricted to one email id:
its state is the database plus the claimed-row snapshot the in-flight
invocation holds (`none` when no invocation holds the claim). Each step is
one atomic database interaction of the worker; `crash` models the process
dying between the claim and its resolution (the snapshot is lost, the
database keeps whatever was written). -/

/-- Machine state for one email id: database plus the in-flight claimed
snapshot. -/
structure MState where
  db : DBState
  inflight : Option EmailRow

/-- Database resolution of a failed attempt: the failure bookkeeping write
of `failurePath` (whose webhook outcome does not touch the database). -/
def failResolve (s : DBState) (e : EmailRow) (emailId : Nat) (msg : String) :
    DBState :=
  (failurePath s e emailId msg (Except.ok ())).1

/-- One atomic worker step on the state of email `emailId`. -/
inductive WStep (emailId : Nat) : MState → MState → Prop where
  | claim (m : MState) (s1 : DBState) (e2 : EmailRow) :
      m.inflight = none →
      claimEmail m.db emailId = (s1, some e2) →
      WStep emailId m ⟨s1, some e2⟩
  | claimMiss (m : MState) :
      m.inflight = none →
      (claimEmail m.db emailId).2 = none →
      WStep emailId m m
  | commitSuccess (m : MState) (e : EmailRow) (messageId : String)
      (month t : Nat) :
      m.inflight = some e →
      WStep emailId m
        ⟨successCommit m.db e.account_id emailId messageId month t, none⟩
  | fail (m : MState) (e : EmailRow) (msg : String) :
      m.inflight = some e →
      WStep emailId m ⟨failResolve m.db e emailId msg, none⟩
  | crash (m : MState) :
      WStep emailId m ⟨m.db, none⟩

/-- Status of one email row, if present. -/
def statusOf (s : DBState) (emailId : Nat) : Option Status :=
  (s.emails emailId).map (fun e => e.status)

/-- Attempt counter of one email row (0 when absent). -/
def attemptsOf (s : DBState) (emailId : Nat) : Nat :=
  (s.emails emailId).elim 0 (fun e => e.attempts)

/-- The inductive invariant WInv of the machine: `sent` iff a usage row exists,
and an in-flight snapshot is exactly the current row, which is
`processing`. -/
def WInv (emailId : Nat) (m : MState) : Prop :=
  ((statusOf m.db emailId = some Status.sent) ↔ usageExists m.db emailId = true) ∧
  (∀ e, m.inflight = some e →
     m.db.emails emailId = some e ∧ e.status = Status.processing)

/-- Initial configuration for the machine: the email row exists with status
`pending` (as the submission gateway inserts it), no usage record, and no
in-flight claim. -/
def InitState (emailId : Nat) (m : MState) : Prop :=
  (∃ e, m.db.emails emailId = some e ∧ e.status = Status.pending) ∧
  usageExists m.db emailId = false ∧ m.inflight = none

/-- Iterated success commit with fixed arguments: `iterCommit accId emailId
mid month t n s` replays the commit `n` times on `s` (simulating crash/
redelivery replays of the committed transaction). -/
def iterCommit (accId emailId : Nat) (mid : String) (month t : Nat) :
    Nat → DBState → DBState
  | 0, s => s
  | n + 1, s =>
      successCommit (iterCommit accId emailId mid month t n s)
        accId emailId mid month t

/-- `n` consecutive worker invocations whose provider call rejects with
`msgs k` on the `k`-th invocation (0-based), with untouched webhook
outcomes. -/
def runFailingJobs (emailId : Nat) (msgs : Nat → String) :
    Nat → DBState → DBState
  | 0, s => s
  | n + 1, s =>
      (processJob (runFailingJobs emailId msgs n s) emailId
        (ProviderResponse.rejected (msgs n)) CommitOutcome.committed
        (Except.ok ()) (Except.ok ()) 0 0).1

/-- The transition edges the spec allows for the email status:
`pending/retrying → processing → {sent, retrying, failed}` (staying put is
always allowed; a step that does not touch the row keeps the status). -/
def statusEdge (a b : Status) : Prop :=
  a = b ∨
  ((a = Status.pending ∨ a = Status.retrying) ∧ b = Status.processing) ∨
  (a = Status.processing ∧
     (b = Status.sent ∨ b = Status.retrying ∨ b = Status.failed))

/-! ## Concrete sample states used by the witnesses -/

/-- A freshly inserted email, as the submission gateway creates it. -/
def sampleEmail : EmailRow :=
  { account_id := 1, idempotency_key := "key-1", to_email := "to@x.io",
    from_email := "from@x.io", subject := "hello", html := none,
    text := some "body", status := Status.pending, attempts := 0,
    last_error := none, provider_message_id := none, sent_at := none }

/-- A database with one pending email, id 7, and an empty usage ledger. -/
def sampleDB : DBState :=
  { emails := fun j => if j = 7 then some sampleEmail else none,
    usage := [] }

/-- The machine configuration for `sampleDB` with no in-flight claim. -/
def sampleM : MState := { db := sampleDB, inflight := none }

/-- An email row that has already been sent. -/
def sampleSentEmail : EmailRow :=
  { sampleEmail with status := Status.sent
                     provider_message_id := some "mid-9"
                     sent_at := some 5 }

/-- A database with one already-sent email, id 9, and its usage record. -/
def sampleSentDB : DBState :=
  { emails := fun j => if j = 9 then some sampleSentEmail else none,
    usage := [⟨1, 9, 3⟩] }

/-- A database whose `emails` table is empty. -/
def missingDB : DBState := { emails := fun _ => none, usage := [] }

/-- An accounts table with one account (id 1) carrying a webhook URL. -/
def sampleAccounts : Nat → Option Account :=
  fun j => if j = 1 then some ⟨some "https://hook.example"⟩ else none

/-- Fetch outcomes where the first two attempts get HTTP 500 and the
third gets HTTP 204. -/
def sampleOutcomes : Nat → FetchOutcome :=
  fun n => if n < 2 then FetchOutcome.response 500
           else FetchOutcome.response 204

/-! ## Basic lemmas about the database operations -/

theorem setEmail_same (s : DBState) (id : Nat) (e : EmailRow) :
    (setEmail s id e).emails id = some e := by
  simp [setEmail]

theorem setEmail_other (s : DBState) (id j : Nat) (e : EmailRow) (h : j ≠ id) :
    (setEmail s id e).emails j = s.emails j := by
  simp [setEmail, h]

theorem setEmail_usage (s : DBState) (id : Nat) (e : EmailRow) :
    (setEmail s id e).usage = s.usage := rfl

/-- Full case analysis of the claim: either the row is claimable and gets
set to `processing` and returned, or the claim is a no-op returning
nothing. -/
theorem claimEmail_spec (s : DBState) (emailId : Nat) :
    (∃ e, s.emails emailId = some e ∧
       (e.status = Status.pending ∨ e.status = Status.retrying) ∧
       claimEmail s emailId =
         (setEmail s emailId { e with status := Status.processing },
          some { e with status := Status.processing })) ∨
    ((∀ e, s.emails emailId = some e →
        e.status ≠ Status.pending ∧ e.status ≠ Status.retrying) ∧
      claimEmail s emailId = (s, none)) := by
  cases hse : s.emails emailId with
  | none =>
    right
    constructor
    · intro e he
      exact Option.noConfusion he
    · unfold claimEmail
      rw [hse]
  | some e =>
    by_cases hcl : e.status = Status.pending ∨ e.status = Status.retrying
    · left
      refine ⟨e, rfl, hcl, ?_⟩
      unfold claimEmail
      rw [hse]
      simp only [if_pos hcl]
    · right
      constructor
      · intro e' he'
        cases he'
        exact ⟨fun h => hcl (Or.inl h), fun h => hcl (Or.inr h)⟩
      · unfold claimEmail
        rw [hse]
        simp only [if_neg hcl]

theorem claimEmail_none_of_not_claimable {s : DBState} {emailId : Nat}
    {e : EmailRow} (hrow : s.emails emailId = some e)
    (h1 : e.status ≠ Status.pending) (h2 : e.status ≠ Status.retrying) :
    claimEmail s emailId = (s, none) := by
  rcases claimEmail_spec s emailId with ⟨e', he', hcl, _⟩ | ⟨_, hres⟩
  · rw [hrow] at he'
    cases he'
    cases hcl with
    | inl h => exact absurd h h1
    | inr h => exact absurd h h2
  · exact hres

theorem insertUsage_emails (s : DBState) (accId emailId month : Nat) :
    (insertUsage s accId emailId month).emails = s.emails := by
  unfold insertUsage
  split <;> rfl

theorem usageExists_insertUsage (s : DBState) (accId emailId month : Nat) :
    usageExists (insertUsage s accId emailId month) emailId = true := by
  unfold insertUsage
  split
  · assumption
  · simp [usageExists]

theorem insertUsage_usage_other (s : DBState) (accId emailId month j : Nat)
    (h : j ≠ emailId) :
    usageExists (insertUsage s accId emailId month) j = usageExists s j := by
  unfold insertUsage
  split
  · rfl
  · simp [usageExists, Ne.symm h]

/-- If the email row exists, the success commit rewrites it to `sent` with
the provider message id and timestamp, leaving every other field alone. -/
theorem successCommit_row {s : DBState} {emailId : Nat} {e : EmailRow}
    (accId : Nat) (mid : String) (month t : Nat)
    (hrow : s.emails emailId = some e) :
    (successCommit s accId emailId mid month t).emails emailId =
      some { e with status := Status.sent, provider_message_id := some mid,
                    sent_at := some t } := by
  simp only [successCommit, insertUsage_emails, hrow]
  exact setEmail_same _ _ _

theorem successCommit_other (s : DBState) (accId emailId : Nat)
    (mid : String) (month t j : Nat) (h : j ≠ emailId) :
    (successCommit s accId emailId mid month t).emails j = s.emails j := by
  simp only [successCommit, insertUsage_emails]
  cases hse : s.emails emailId with
  | none => simp only [insertUsage_emails]
  | some e =>
    rw [setEmail_other _ _ _ _ h, insertUsage_emails]

theorem successCommit_usage (s : DBState) (accId emailId : Nat)
    (mid : String) (month t : Nat) :
    (successCommit s accId emailId mid month t).usage =
      (insertUsage s accId emailId month).usage := by
  simp only [successCommit, insertUsage_emails]
  cases hse : s.emails emailId with
  | none => rfl
  | some e => rfl

theorem usageExists_successCommit (s : DBState) (accId emailId : Nat)
    (mid : String) (month t : Nat) :
    usageExists (successCommit s accId emailId mid month t) emailId = true := by
  have h := successCommit_usage s accId emailId mid month t
  unfold usageExists at *
  rw [h]
  exact usageExists_insertUsage s accId emailId month

theorem failureUpdate_row {s : DBState} {emailId : Nat} {e : EmailRow}
    (attempts : Nat) (st : Status) (msg : String)
    (hrow : s.emails emailId = some e) :
    (failureUpdate s emailId attempts st msg).emails emailId =
      some { e with attempts := attempts, status := st,
                    last_error := some msg } := by
  unfold failureUpdate
  rw [hrow]
  exact setEmail_same _ _ _

theorem failureUpdate_other (s : DBState) (emailId attempts : Nat)
    (st : Status) (msg : String) (j : Nat) (h : j ≠ emailId) :
    (failureUpdate s emailId attempts st msg).emails j = s.emails j := by
  unfold failureUpdate
  cases hse : s.emails emailId with
  | none => rfl
  | some e => exact setEmail_other _ _ _ _ h

theorem failureUpdate_usage (s : DBState) (emailId attempts : Nat)
    (st : Status) (msg : String) :
    (failureUpdate s emailId attempts st msg).usage = s.usage := by
  unfold failureUpdate
  cases hse : s.emails emailId <;> rfl

/-- The failure path's database effect is the bookkeeping update with
`attempts + 1` and the terminal/retrying status, for every webhook
outcome; its result re-throws the original message. -/
theorem failurePath_eq (s : DBState) (e : EmailRow) (emailId : Nat)
    (msg : String) (nf : Except String Unit) :
    failurePath s e emailId msg nf =
      (failureUpdate s emailId (e.attempts + 1)
        (if MAX_ATTEMPTS ≤ e.attempts + 1 then Status.failed
         else Status.retrying) msg,
       PipelineResult.thrown msg) := by
  simp only [failurePath]
  by_cases h : MAX_ATTEMPTS ≤ e.attempts + 1
  · simp only [if_pos h]
    cases nf <;> rfl
  · simp only [if_neg h]

theorem setEmail_setEmail (s : DBState) (id : Nat) (a b : EmailRow) :
    setEmail (setEmail s id a) id b = setEmail s id b := by
  unfold setEmail
  congr 1
  funext j
  by_cases h : j = id <;> simp [h]

theorem failureUpdate_after_set (s : DBState) (emailId : Nat) (e2 : EmailRow)
    (attempts : Nat) (st : Status) (msg : String) :
    failureUpdate (setEmail s emailId e2) emailId attempts st msg =
      setEmail s emailId
        { e2 with attempts := attempts, status := st,
                  last_error := some msg } := by
  unfold failureUpdate
  rw [setEmail_same]
  exact setEmail_setEmail s emailId e2 _

theorem usageExists_setEmail (s : DBState) (id : Nat) (e : EmailRow)
    (j : Nat) : usageExists (setEmail s id e) j = usageExists s j := rfl

theorem usageExists_failureUpdate (s : DBState) (emailId attempts : Nat)
    (st : Status) (msg : String) (j : Nat) :
    usageExists (failureUpdate s emailId attempts st msg) j =
      usageExists s j := by
  unfold usageExists
  rw [failureUpdate_usage]

theorem failResolve_eq (s : DBState) (e : EmailRow) (emailId : Nat)
    (msg : String) :
    failResolve s e emailId msg =
      failureUpdate s emailId (e.attempts + 1)
        (if MAX_ATTEMPTS ≤ e.attempts + 1 then Status.failed
         else Status.retrying) msg := by
  unfold failResolve
  rw [failurePath_eq]

theorem usage_false_of_status {s : DBState} {emailId : Nat} {e : EmailRow}
    (hiff : (statusOf s emailId = some Status.sent) ↔
      usageExists s emailId = true)
    (hrow : s.emails emailId = some e) (hns : e.status ≠ Status.sent) :
    usageExists s emailId = false := by
  cases hu : usageExists s emailId
  · rfl
  · have hsent := hiff.mpr hu
    simp only [statusOf, hrow, Option.map_some'] at hsent
    injection hsent with h
    exact absurd h hns

/-- Every worker step preserves the invariant. -/
theorem winv_step {emailId : Nat} {m m' : MState} (h : WInv emailId m)
    (hs : WStep emailId m m') : WInv emailId m' := by
  obtain ⟨hiff, hinf⟩ := h
  cases hs with
  | claim s1 e2 hnone hclaim =>
    rcases claimEmail_spec m.db emailId with ⟨e, he, hcle, heq⟩ | ⟨_, heq⟩
    · rw [heq] at hclaim
      injection hclaim with h1 h2
      injection h2 with h2
      subst h1
      subst h2
      have hns : e.status ≠ Status.sent := by
        cases hcle with
        | inl hp => rw [hp]; intro hc; exact Status.noConfusion hc
        | inr hp => rw [hp]; intro hc; exact Status.noConfusion hc
      have husage := usage_false_of_status hiff he hns
      constructor
      · constructor
        · intro hsent
          simp only [statusOf, setEmail_same, Option.map_some'] at hsent
          injection hsent with hsent
          exact Status.noConfusion hsent
        · intro hu
          rw [usageExists_setEmail, husage] at hu
          exact Bool.noConfusion hu
      · intro e' he'
        injection he' with he'
        subst he'
        exact ⟨setEmail_same _ _ _, rfl⟩
    · rw [heq] at hclaim
      injection hclaim with h1 h2
      exact Option.noConfusion h2
  | claimMiss _ _ =>
    exact ⟨hiff, hinf⟩
  | commitSuccess e mid month t hin =>
    obtain ⟨hrow, _⟩ := hinf e hin
    constructor
    · constructor
      · intro _
        exact usageExists_successCommit _ _ _ _ _ _
      · intro _
        simp only [statusOf, successCommit_row e.account_id mid month t hrow,
          Option.map_some']
    · intro e' he'
      exact Option.noConfusion he'
  | fail e msg hin =>
    obtain ⟨hrow, hproc⟩ := hinf e hin
    have hns : e.status ≠ Status.sent := by
      rw [hproc]
      intro hc
      exact Status.noConfusion hc
    have husage := usage_false_of_status hiff hrow hns
    constructor
    · constructor
      · intro hsent
        rw [failResolve_eq] at hsent
        simp only [statusOf, failureUpdate_row _ _ _ hrow,
          Option.map_some'] at hsent
        injection hsent with hsent
        by_cases hterm : MAX_ATTEMPTS ≤ e.attempts + 1
        · rw [if_pos hterm] at hsent
          exact Status.noConfusion hsent
        · rw [if_neg hterm] at hsent
          exact Status.noConfusion hsent
      · intro hu
        rw [failResolve_eq, usageExists_failureUpdate, husage] at hu
        exact Bool.noConfusion hu
    · intro e' he'
      exact Option.noConfusion he'
  | crash =>
    constructor
    · exact hiff
    · intro e' he'
      exact Option.noConfusion he'

/-- The invariant holds in every state reachable from a state satisfying
it. -/
theorem winv_reach {emailId : Nat} {m0 m : MState} (h0 : WInv emailId m0)
    (hr : Relation.ReflTransGen (WStep emailId) m0 m) : WInv emailId m := by
  induction hr with
  | refl => exact h0
  | tail _ hstep ih => exact winv_step ih hstep

/-- The initial configuration satisfies the invariant. -/
theorem init_winv {emailId : Nat} {m : MState} (h : InitState emailId m) :
    WInv emailId m := by
  obtain ⟨⟨e, hrow, hpend⟩, husage, hnone⟩ := h
  constructor
  · constructor
    · intro hsent
      simp only [statusOf, hrow, Option.map_some'] at hsent
      injection hsent with hsent
      rw [hpend] at hsent
      exact Status.noConfusion hsent
    · intro hu
      rw [husage] at hu
      exact Bool.noConfusion hu
  · intro e' he'
    rw [hnone] at he'
    exact Option.noConfusion he'

/-- A worker invocation on an existing row that is not claimable is a
no-op: the database is untouched and the invocation returns cleanly. -/
theorem processJob_noop {s : DBState} {emailId : Nat} {e : EmailRow}
    (hid : emailId ≠ 0) (hrow : s.emails emailId = some e)
    (h1 : e.status ≠ Status.pending) (h2 : e.status ≠ Status.retrying)
    (prov : ProviderResponse) (commit : CommitOutcome)
    (ns nf : Except String Unit) (month t : Nat) :
    processJob s emailId prov commit ns nf month t =
      (s, PipelineResult.cleanReturn) := by
  have hclaim := claimEmail_none_of_not_claimable hrow h1 h2
  unfold processJob
  rw [if_neg hid, hclaim]

/-- A worker invocation whose send is accepted and whose commit goes
through produces exactly the committed state and a clean return, for every
webhook outcome. -/
theorem processJob_success {s : DBState} {emailId : Nat} {e : EmailRow}
    {mid : String}
    (hid : emailId ≠ 0) (hrow : s.emails emailId = some e)
    (hcl : e.status = Status.pending ∨ e.status = Status.retrying)
    (hmid : mid ≠ "")
    (ns nf : Except String Unit) (month t : Nat) :
    processJob s emailId (ProviderResponse.resolved (some mid))
        CommitOutcome.committed ns nf month t =
      (successCommit (setEmail s emailId { e with status := Status.processing })
         e.account_id emailId mid month t,
       PipelineResult.cleanReturn) := by
  rcases claimEmail_spec s emailId with ⟨e', he', _, heq⟩ | ⟨hno, _⟩
  · rw [hrow] at he'
    cases he'
    unfold processJob
    rw [if_neg hid, heq]
    simp only [acceptedId, if_neg hmid]
    cases ns <;> rfl
  · rcases hno e hrow with ⟨h1, h2⟩
    cases hcl with
    | inl h => exact absurd h h1
    | inr h => exact absurd h h2

/-- A worker invocation whose send or commit fails performs the failure
bookkeeping on the claimed row and re-throws the error message. -/
theorem processJob_err {s : DBState} {emailId : Nat} {e : EmailRow}
    {prov : ProviderResponse} {commit : CommitOutcome} {msg : String}
    (hid : emailId ≠ 0) (hrow : s.emails emailId = some e)
    (hcl : e.status = Status.pending ∨ e.status = Status.retrying)
    (herr : acceptedId prov = Except.error msg ∨
       (∃ mid, acceptedId prov = Except.ok mid ∧
          commit = CommitOutcome.aborted msg))
    (ns nf : Except String Unit) (month t : Nat) :
    processJob s emailId prov commit ns nf month t =
      (setEmail s emailId
        { e with status := (if MAX_ATTEMPTS ≤ e.attempts + 1 then Status.failed
                            else Status.retrying),
                 attempts := e.attempts + 1, last_error := some msg },
       PipelineResult.thrown msg) := by
  rcases claimEmail_spec s emailId with ⟨e', he', _, heq⟩ | ⟨hno, _⟩
  · rw [hrow] at he'
    cases he'
    unfold processJob
    rw [if_neg hid, heq]
    cases herr with
    | inl hp =>
      rw [hp]
      dsimp only
      rw [failurePath_eq, failureUpdate_after_set]
    | inr hc =>
      obtain ⟨mid, hp, hcommit⟩ := hc
      rw [hp, hcommit]
      dsimp only
      rw [failurePath_eq, failureUpdate_after_set]
  · rcases hno e hrow with ⟨h1, h2⟩
    cases hcl with
    | inl h => exact absurd h h1
    | inr h => exact absurd h h2

/-! ## Claim theorems -/

/-- C1: over any sequence of pipeline operations on an email starting from
its freshly inserted state, the email's status is `sent` iff a usage
record for it exists; moreover the success commit makes the usage insert
and the `sent` update visible together (both hold right after a commit),
so no reachable state shows one effect without the other. -/
theorem C1_sent_iff_usage (emailId : Nat) (m0 m : MState)
    (hinit : InitState emailId m0)
    (hr : Relation.ReflTransGen (WStep emailId) m0 m) :
    ((statusOf m.db emailId = some Status.sent) ↔
      usageExists m.db emailId = true) ∧
    (∀ e mid month t, m.db.emails emailId = some e →
       statusOf (successCommit m.db e.account_id emailId mid month t)
           emailId = some Status.sent ∧
         usageExists (successCommit m.db e.account_id emailId mid month t)
           emailId = true) := by
  refine ⟨(winv_reach (init_winv hinit) hr).1, ?_⟩
  intro e mid month t hrow
  constructor
  · simp only [statusOf, successCommit_row e.account_id mid month t hrow,
      Option.map_some']
  · exact usageExists_successCommit _ _ _ _ _ _

/-- Witness for C1 at the concrete initial state `sampleM` (email 7,
pending, empty ledger). -/
theorem C1_sent_iff_usage_witness :
    ((statusOf sampleM.db 7 = some Status.sent) ↔
      usageExists sampleM.db 7 = true) ∧
    (∀ e mid month t, sampleM.db.emails 7 = some e →
       statusOf (successCommit sampleM.db e.account_id 7 mid month t) 7 =
           some Status.sent ∧
         usageExists (successCommit sampleM.db e.account_id 7 mid month t)
           7 = true) :=
  C1_sent_iff_usage 7 sampleM sampleM
    ⟨⟨sampleEmail, rfl, rfl⟩, rfl, rfl⟩ Relation.ReflTransGen.refl

/-- C3: the claim transitions an email to `processing` and returns the
full row exactly when its status is `pending` or `retrying`; on any other
status the claim returns the no-op signal, and the whole pipeline
invocation exits cleanly with the database untouched. -/
theorem C3_claim_contract :
    (∀ s emailId e, s.emails emailId = some e →
       (e.status = Status.pending ∨ e.status = Status.retrying) →
       claimEmail s emailId =
         (setEmail s emailId { e with status := Status.processing },
          some { e with status := Status.processing })) ∧
    (∀ s emailId e, s.emails emailId = some e →
       e.status ≠ Status.pending → e.status ≠ Status.retrying →
       claimEmail s emailId = (s, none)) ∧
    (∀ s emailId e prov commit ns nf month t, emailId ≠ 0 →
       s.emails emailId = some e →
       e.status ≠ Status.pending → e.status ≠ Status.retrying →
       processJob s emailId prov commit ns nf month t =
         (s, PipelineResult.cleanReturn)) := by
  refine ⟨?_, ?_, ?_⟩
  · intro s emailId e hrow hcl
    rcases claimEmail_spec s emailId with ⟨e', he', _, heq⟩ | ⟨hno, _⟩
    · rw [hrow] at he'
      injection he' with he'
      subst he'
      exact heq
    · rcases hno e hrow with ⟨h1, h2⟩
      cases hcl with
      | inl h => exact absurd h h1
      | inr h => exact absurd h h2
  · intro s emailId e hrow h1 h2
    exact claimEmail_none_of_not_claimable hrow h1 h2
  · intro s emailId e prov commit ns nf month t hid hrow h1 h2
    exact processJob_noop hid hrow h1 h2 prov commit ns nf month t

/-- Witness for C3: claiming the already-sent email 9 is a clean no-op,
and claiming the pending email 7 returns the `processing` row. -/
theorem C3_claim_contract_witness :
    processJob sampleSentDB 9 (ProviderResponse.resolved (some "mid"))
        CommitOutcome.committed (Except.ok ()) (Except.ok ()) 0 0 =
      (sampleSentDB, PipelineResult.cleanReturn) ∧
    claimEmail sampleDB 7 =
      (setEmail sampleDB 7 { sampleEmail with status := Status.processing },
       some { sampleEmail with status := Status.processing }) :=
  ⟨C3_claim_contract.2.2 sampleSentDB 9 sampleSentEmail _ _ _ _ 0 0
      (by decide) rfl (by decide) (by decide),
   C3_claim_contract.1 sampleDB 7 sampleEmail rfl (Or.inl rfl)⟩

/-- C7 counterexample: job 42 references no email row, yet the pipeline
does not raise an error — it returns cleanly with the database untouched
(the code logs "already processed, skipping" for this case). -/
theorem C7_counterexample :
    missingDB.emails 42 = none ∧
    processJob missingDB 42 (ProviderResponse.resolved (some "mid-1"))
        CommitOutcome.committed (Except.ok ()) (Except.ok ()) 0 0 =
      (missingDB, PipelineResult.cleanReturn) :=
  ⟨rfl, rfl⟩

/-- C7 amended: a job whose email id matches no row is treated as a claim
miss — the pipeline returns cleanly with no state change; only a missing
(falsy) `emailId` in the job data raises an error. -/
theorem C7_missing_row_is_claim_miss :
    (∀ s emailId prov commit ns nf month t, emailId ≠ 0 →
       s.emails emailId = none →
       processJob s emailId prov commit ns nf month t =
         (s, PipelineResult.cleanReturn)) ∧
    (∀ s prov commit ns nf month t,
       processJob s 0 prov commit ns nf month t =
         (s, PipelineResult.thrown "No emailId in job data")) := by
  constructor
  · intro s emailId prov commit ns nf month t hid hrow
    have hclaim : claimEmail s emailId = (s, none) := by
      unfold claimEmail
      rw [hrow]
    unfold processJob
    rw [if_neg hid, hclaim]
  · intro s prov commit ns nf month t
    unfold processJob
    rw [if_pos rfl]

/-- Witness for the amended C7 at a concrete missing id. -/
theorem C7_missing_row_witness :
    processJob missingDB 43 (ProviderResponse.rejected "boom")
        (CommitOutcome.aborted "x") (Except.error "w") (Except.error "w")
        1 2 =
      (missingDB, PipelineResult.cleanReturn) :=
  C7_missing_row_is_claim_miss.1 missingDB 43 _ _ _ _ 1 2 (by decide) rfl

/-- C5: along any step sequence from the freshly inserted state, the
attempts counter never decreases, the status only moves along the edges
`pending/retrying → processing → {sent, retrying, failed}`, and once the
status is `sent` or `failed` no step changes the row again. -/
theorem C5_status_monotonic (emailId : Nat) (m0 m m' : MState)
    (hinit : InitState emailId m0)
    (hr : Relation.ReflTransGen (WStep emailId) m0 m)
    (hs : WStep emailId m m') :
    attemptsOf m.db emailId ≤ attemptsOf m'.db emailId ∧
    (∀ a b, statusOf m.db emailId = some a →
       statusOf m'.db emailId = some b → statusEdge a b) ∧
    ((statusOf m.db emailId = some Status.sent ∨
      statusOf m.db emailId = some Status.failed) →
       m'.db.emails emailId = m.db.emails emailId) := by
  obtain ⟨hiff, hinf⟩ := winv_reach (init_winv hinit) hr
  cases hs with
  | claim s1 e2 hnone hclaim =>
    rcases claimEmail_spec m.db emailId with ⟨e, he, hcle, heq⟩ | ⟨hno, heq⟩
    · rw [heq] at hclaim
      injection hclaim with h1 h2
      injection h2 with h2
      subst h1
      subst h2
      have hterm_no : ¬(statusOf m.db emailId = some Status.sent ∨
          statusOf m.db emailId = some Status.failed) := by
        intro hterm
        cases hterm with
        | inl h =>
          simp only [statusOf, he, Option.map_some'] at h
          injection h with h
          cases hcle with
          | inl hp => rw [hp] at h; exact Status.noConfusion h
          | inr hp => rw [hp] at h; exact Status.noConfusion h
        | inr h =>
          simp only [statusOf, he, Option.map_some'] at h
          injection h with h
          cases hcle with
          | inl hp => rw [hp] at h; exact Status.noConfusion h
          | inr hp => rw [hp] at h; exact Status.noConfusion h
      refine ⟨?_, ?_, fun hterm => absurd hterm hterm_no⟩
      · simp [attemptsOf, he, setEmail_same]
      · intro a b ha hb
        simp only [statusOf, he, Option.map_some'] at ha
        simp only [statusOf, setEmail_same, Option.map_some'] at hb
        injection ha with ha
        injection hb with hb
        subst ha
        subst hb
        exact Or.inr (Or.inl ⟨hcle, rfl⟩)
    · rw [heq] at hclaim
      injection hclaim with h1 h2
      exact Option.noConfusion h2
  | claimMiss _ _ =>
    refine ⟨le_refl _, ?_, fun _ => rfl⟩
    intro a b ha hb
    rw [ha] at hb
    injection hb with hb
    exact Or.inl hb
  | commitSuccess e mid month t hin =>
    obtain ⟨hrow, hproc⟩ := hinf e hin
    refine ⟨?_, ?_, ?_⟩
    · simp [attemptsOf, hrow, successCommit_row e.account_id mid month t hrow]
    · intro a b ha hb
      simp only [statusOf, hrow, Option.map_some'] at ha
      simp only [statusOf, successCommit_row e.account_id mid month t hrow,
        Option.map_some'] at hb
      injection ha with ha
      injection hb with hb
      subst hb
      exact Or.inr (Or.inr ⟨by rw [← ha, hproc], Or.inl rfl⟩)
    · intro hterm
      exfalso
      cases hterm with
      | inl h =>
        simp only [statusOf, hrow, Option.map_some'] at h
        injection h with h
        rw [hproc] at h
        exact Status.noConfusion h
      | inr h =>
        simp only [statusOf, hrow, Option.map_some'] at h
        injection h with h
        rw [hproc] at h
        exact Status.noConfusion h
  | fail e msg hin =>
    obtain ⟨hrow, hproc⟩ := hinf e hin
    refine ⟨?_, ?_, ?_⟩
    · rw [failResolve_eq]
      simp [attemptsOf, hrow, failureUpdate_row _ _ _ hrow]
    · intro a b ha hb
      rw [failResolve_eq] at hb
      simp only [statusOf, hrow, Option.map_some'] at ha
      simp only [statusOf, failureUpdate_row _ _ _ hrow,
        Option.map_some'] at hb
      injection ha with ha
      injection hb with hb
      subst hb
      refine Or.inr (Or.inr ⟨by rw [← ha, hproc], ?_⟩)
      by_cases hmax : MAX_ATTEMPTS ≤ e.attempts + 1
      · rw [if_pos hmax]
        exact Or.inr (Or.inr rfl)
      · rw [if_neg hmax]
        exact Or.inr (Or.inl rfl)
    · intro hterm
      exfalso
      cases hterm with
      | inl h =>
        simp only [statusOf, hrow, Option.map_some'] at h
        injection h with h
        rw [hproc] at h
        exact Status.noConfusion h
      | inr h =>
        simp only [statusOf, hrow, Option.map_some'] at h
        injection h with h
        rw [hproc] at h
        exact Status.noConfusion h
  | crash =>
    refine ⟨le_refl _, ?_, fun _ => rfl⟩
    intro a b ha hb
    rw [ha] at hb
    injection hb with hb
    exact Or.inl hb

/-- Witness for C5: from the concrete initial state, one crash step (which
leaves the database untouched) satisfies all three properties. -/
theorem C5_status_monotonic_witness :
    attemptsOf sampleM.db 7 ≤ attemptsOf sampleM.db 7 ∧
    (∀ a b, statusOf sampleM.db 7 = some a →
       statusOf sampleM.db 7 = some b → statusEdge a b) ∧
    ((statusOf sampleM.db 7 = some Status.sent ∨
      statusOf sampleM.db 7 = some Status.failed) →
       sampleM.db.emails 7 = sampleM.db.emails 7) :=
  C5_status_monotonic 7 sampleM sampleM ⟨sampleDB, none⟩
    ⟨⟨sampleEmail, rfl, rfl⟩, rfl, rfl⟩ Relation.ReflTransGen.refl
    (WStep.crash sampleM)

theorem any_iff_filter_len (l : List UsageRecord) (emailId : Nat) :
    (l.any (fun u => u.email_id = emailId) = true) ↔
      1 ≤ (l.filter (fun u => u.email_id = emailId)).length := by
  induction l with
  | nil => simp
  | cons x xs ih =>
    by_cases h : x.email_id = emailId
    · simp [h]
    · simp [h, ih]

theorem usageExists_iff_one_le (s : DBState) (emailId : Nat) :
    usageExists s emailId = true ↔ 1 ≤ countUsage s emailId :=
  any_iff_filter_len s.usage emailId

theorem countUsage_insertUsage_new {s : DBState} {emailId : Nat}
    (accId month : Nat) (h : usageExists s emailId = false) :
    countUsage (insertUsage s accId emailId month) emailId =
      countUsage s emailId + 1 := by
  unfold insertUsage
  simp [h, countUsage, List.filter_append]

theorem countUsage_insertUsage_dup {s : DBState} {emailId : Nat}
    (accId month : Nat) (h : usageExists s emailId = true) :
    countUsage (insertUsage s accId emailId month) emailId =
      countUsage s emailId := by
  unfold insertUsage
  simp [h]

theorem countUsage_successCommit (s : DBState) (accId emailId : Nat)
    (mid : String) (month t j : Nat) :
    countUsage (successCommit s accId emailId mid month t) j =
      countUsage (insertUsage s accId emailId month) j := by
  unfold countUsage
  rw [successCommit_usage]

/-- One success commit leaves exactly one usage row for the email, whether
or not one already exists (the `UNIQUE(email_id)` constraint guarantees at
most one beforehand). -/
theorem successCommit_usage_one {s : DBState} {emailId : Nat}
    (accId : Nat) (mid : String) (month t : Nat)
    (h : countUsage s emailId ≤ 1) :
    countUsage (successCommit s accId emailId mid month t) emailId = 1 := by
  rw [countUsage_successCommit]
  cases hex : usageExists s emailId
  · have h0 : countUsage s emailId = 0 := by
      by_contra hc
      have h1 : 1 ≤ countUsage s emailId := by omega
      rw [(usageExists_iff_one_le s emailId).mpr h1] at hex
      exact Bool.noConfusion hex
    rw [countUsage_insertUsage_new accId month hex, h0]
  · have h1 := (usageExists_iff_one_le s emailId).mp hex
    rw [countUsage_insertUsage_dup accId month hex]
    omega

/-- Replayed commits keep the email row present and the usage count at
most one. -/
theorem iterCommit_aux (accId emailId : Nat) (mid : String) (month t : Nat)
    (s : DBState) (e : EmailRow) (hrow : s.emails emailId = some e)
    (hcount : countUsage s emailId ≤ 1) (n : Nat) :
    (∃ e', (iterCommit accId emailId mid month t n s).emails emailId =
      some e') ∧
    countUsage (iterCommit accId emailId mid month t n s) emailId ≤ 1 := by
  induction n with
  | zero => exact ⟨⟨e, hrow⟩, hcount⟩
  | succ k ih =>
    obtain ⟨⟨e', hrow'⟩, hcount'⟩ := ih
    constructor
    · exact ⟨_, successCommit_row accId mid month t hrow'⟩
    · rw [show iterCommit accId emailId mid month t (k + 1) s =
          successCommit (iterCommit accId emailId mid month t k s)
            accId emailId mid month t from rfl,
        successCommit_usage_one accId mid month t hcount']

/-- C2: the success commit is idempotent — replaying it any number
`n ≥ 1` of times on an email whose row exists (and whose ledger respects
the unique constraint) always succeeds, leaves exactly one usage record
for that email id, and leaves the email status `sent`. -/
theorem C2_commit_idempotent (accId emailId : Nat) (mid : String)
    (month t : Nat) (s : DBState) (e : EmailRow) (n : Nat)
    (hrow : s.emails emailId = some e)
    (hcount : countUsage s emailId ≤ 1) (hn : 1 ≤ n) :
    countUsage (iterCommit accId emailId mid month t n s) emailId = 1 ∧
    statusOf (iterCommit accId emailId mid month t n s) emailId =
      some Status.sent := by
  cases n with
  | zero => exact absurd hn (by omega)
  | succ k =>
    obtain ⟨⟨e', hrow'⟩, hcount'⟩ :=
      iterCommit_aux accId emailId mid month t s e hrow hcount k
    constructor
    · rw [show iterCommit accId emailId mid month t (k + 1) s =
          successCommit (iterCommit accId emailId mid month t k s)
            accId emailId mid month t from rfl,
        successCommit_usage_one accId mid month t hcount']
    · rw [show iterCommit accId emailId mid month t (k + 1) s =
          successCommit (iterCommit accId emailId mid month t k s)
            accId emailId mid month t from rfl]
      simp only [statusOf, successCommit_row accId mid month t hrow',
        Option.map_some']

/-- Witness for C2: replaying the commit three times on the pending email 7
(empty ledger) yields exactly one usage row and status `sent`. -/
theorem C2_commit_idempotent_witness :
    countUsage (iterCommit 1 7 "mid-7" 3 4 3 sampleDB) 7 = 1 ∧
    statusOf (iterCommit 1 7 "mid-7" 3 4 3 sampleDB) 7 =
      some Status.sent :=
  C2_commit_idempotent 1 7 "mid-7" 3 4 sampleDB sampleEmail 3 rfl
    (by decide) (by decide)

/-- Pointwise form of the failure bookkeeping after a rejected provider
call. -/
theorem processJob_rejected_row {s : DBState} {emailId : Nat} {e : EmailRow}
    (msg : String) (hid : emailId ≠ 0) (hrow : s.emails emailId = some e)
    (hcl : e.status = Status.pending ∨ e.status = Status.retrying)
    (ns nf : Except String Unit) (month t : Nat) :
    (processJob s emailId (ProviderResponse.rejected msg)
        CommitOutcome.committed ns nf month t).1.emails emailId =
      some { e with status := (if MAX_ATTEMPTS ≤ e.attempts + 1
                               then Status.failed else Status.retrying)
                    attempts := e.attempts + 1
                    last_error := some msg } ∧
    (processJob s emailId (ProviderResponse.rejected msg)
        CommitOutcome.committed ns nf month t).2 =
      PipelineResult.thrown msg := by
  rw [processJob_err hid hrow hcl
    (Or.inl (rfl :
      acceptedId (ProviderResponse.rejected msg) = Except.error msg))
    ns nf month t]
  exact ⟨setEmail_same _ _ _, rfl⟩

/-- After `k` consecutive rejected sends (`1 ≤ k ≤ 4`) starting from a
pending row with 0 attempts, the row is `retrying` with `attempts = k` and
the `k`-th error message. -/
theorem runFailingJobs_mid {s : DBState} {emailId : Nat} {e : EmailRow}
    (msgs : Nat → String) (hid : emailId ≠ 0)
    (hrow : s.emails emailId = some e) (hpend : e.status = Status.pending)
    (h0 : e.attempts = 0) :
    ∀ k, 1 ≤ k → k ≤ 4 →
      (runFailingJobs emailId msgs k s).emails emailId =
        some { e with status := Status.retrying
                      attempts := k
                      last_error := some (msgs (k - 1)) } := by
  intro k
  induction k with
  | zero => intro h1 _; exact absurd h1 (by omega)
  | succ j ih =>
    intro _ hle
    cases Nat.eq_zero_or_pos j with
    | inl hj0 =>
      subst hj0
      have hstep := (processJob_rejected_row (msgs 0) hid hrow
        (Or.inl hpend) (Except.ok ()) (Except.ok ()) 0 0).1
      have hmax : ¬ (MAX_ATTEMPTS ≤ e.attempts + 1) := by
        rw [h0]
        decide
      rw [if_neg hmax] at hstep
      rw [show runFailingJobs emailId msgs 1 s =
        (processJob (runFailingJobs emailId msgs 0 s) emailId
          (ProviderResponse.rejected (msgs 0)) CommitOutcome.committed
          (Except.ok ()) (Except.ok ()) 0 0).1 from rfl]
      rw [show runFailingJobs emailId msgs 0 s = s from rfl] at *
      rw [hstep, h0]
    | inr hj1 =>
      have hrowj := ih hj1 (by omega)
      have hstep := (processJob_rejected_row (msgs j) hid hrowj
        (Or.inr rfl) (Except.ok ()) (Except.ok ()) 0 0).1
      have hmax : ¬ (MAX_ATTEMPTS ≤
          ({ e with status := Status.retrying
                    attempts := j
                    last_error := some (msgs (j - 1)) } : EmailRow).attempts +
            1) := by
        show ¬ (MAX_ATTEMPTS ≤ j + 1)
        simp only [MAX_ATTEMPTS]
        omega
      rw [if_neg hmax] at hstep
      rw [show runFailingJobs emailId msgs (j + 1) s =
        (processJob (runFailingJobs emailId msgs j s) emailId
          (ProviderResponse.rejected (msgs j)) CommitOutcome.committed
          (Except.ok ()) (Except.ok ()) 0 0).1 from rfl]
      rw [hstep]
      simp only [Nat.add_sub_cancel]

/-- C4: on any exception from the provider call or the commit, the worker
writes `attempts + 1`, records the error message in `last_error`, sets
status `retrying` below 5 attempts and `failed` at 5, and re-throws the
error; after 5 consecutive claimed-and-failed attempts the row is
`failed` with `attempts = 5` and the 5th failure's message. -/
theorem C4_failure_bookkeeping :
    (∀ s emailId e prov commit msg ns nf month t, emailId ≠ 0 →
       s.emails emailId = some e →
       (e.status = Status.pending ∨ e.status = Status.retrying) →
       (acceptedId prov = Except.error msg ∨
         (∃ mid, acceptedId prov = Except.ok mid ∧
            commit = CommitOutcome.aborted msg)) →
       (processJob s emailId prov commit ns nf month t).1.emails emailId =
         some { e with status := (if MAX_ATTEMPTS ≤ e.attempts + 1
                                  then Status.failed else Status.retrying)
                       attempts := e.attempts + 1
                       last_error := some msg } ∧
       (processJob s emailId prov commit ns nf month t).2 =
         PipelineResult.thrown msg) ∧
    (∀ s emailId e msgs, emailId ≠ 0 → s.emails emailId = some e →
       e.status = Status.pending → e.attempts = 0 →
       (runFailingJobs emailId msgs 5 s).emails emailId =
         some { e with status := Status.failed
                       attempts := 5
                       last_error := some (msgs 4) }) := by
  constructor
  · intro s emailId e prov commit msg ns nf month t hid hrow hcl herr
    rw [processJob_err hid hrow hcl herr ns nf month t]
    exact ⟨setEmail_same _ _ _, rfl⟩
  · intro s emailId e msgs hid hrow hpend h0
    have h4 := runFailingJobs_mid msgs hid hrow hpend h0 4 (by omega)
      (by omega)
    have hstep := (processJob_rejected_row (msgs 4) hid h4
      (Or.inr rfl) (Except.ok ()) (Except.ok ()) 0 0).1
    rw [show runFailingJobs emailId msgs 5 s =
      (processJob (runFailingJobs emailId msgs 4 s) emailId
        (ProviderResponse.rejected (msgs 4)) CommitOutcome.committed
        (Except.ok ()) (Except.ok ()) 0 0).1 from rfl]
    rw [hstep]
    rfl

/-- Witness for C4: five consecutive provider rejections on email 7 leave
it `failed` with `attempts = 5` and the 5th message. -/
theorem C4_failure_bookkeeping_witness :
    (runFailingJobs 7 (fun k => toString k) 5 sampleDB).emails 7 =
      some { sampleEmail with status := Status.failed
                              attempts := 5
                              last_error := some (toString 4) } :=
  C4_failure_bookkeeping.2 sampleDB 7 sampleEmail (fun k => toString k)
    (by decide) rfl rfl rfl

/-- C6: acceptance is defined by presence of a non-empty message id: a
resolved response with a non-empty id is accepted and its id is recorded
as `provider_message_id`; a resolved response with a missing or empty id
is treated as a failure and drives the retry bookkeeping even though no
transport error occurred. -/
theorem C6_acceptance_by_id :
    (∀ id, id ≠ "" →
       acceptedId (ProviderResponse.resolved (some id)) = Except.ok id) ∧
    (acceptedId (ProviderResponse.resolved none) =
       Except.error "No message ID returned from Resend" ∧
     acceptedId (ProviderResponse.resolved (some "")) =
       Except.error "No message ID returned from Resend") ∧
    (∀ s emailId e mid ns nf month t, emailId ≠ 0 →
       s.emails emailId = some e →
       (e.status = Status.pending ∨ e.status = Status.retrying) →
       mid ≠ "" →
       (processJob s emailId (ProviderResponse.resolved (some mid))
           CommitOutcome.committed ns nf month t).1.emails emailId =
         some { e with status := Status.sent
                       provider_message_id := some mid
                       sent_at := some t } ∧
       (processJob s emailId (ProviderResponse.resolved (some mid))
           CommitOutcome.committed ns nf month t).2 =
         PipelineResult.cleanReturn) ∧
    (∀ s emailId e ns nf month t, emailId ≠ 0 →
       s.emails emailId = some e →
       (e.status = Status.pending ∨ e.status = Status.retrying) →
       (processJob s emailId (ProviderResponse.resolved none)
           CommitOutcome.committed ns nf month t).1.emails emailId =
         some { e with
                status := (if MAX_ATTEMPTS ≤ e.attempts + 1
                           then Status.failed else Status.retrying)
                attempts := e.attempts + 1
                last_error := some "No message ID returned from Resend" } ∧
       (processJob s emailId (ProviderResponse.resolved none)
           CommitOutcome.committed ns nf month t).2 =
         PipelineResult.thrown "No message ID returned from Resend") := by
  refine ⟨?_, ⟨rfl, rfl⟩, ?_, ?_⟩
  · intro id h
    simp only [acceptedId, if_neg h]
  · intro s emailId e mid ns nf month t hid hrow hcl hmid
    rw [processJob_success hid hrow hcl hmid ns nf month t]
    refine ⟨?_, rfl⟩
    rw [successCommit_row e.account_id mid month t (setEmail_same s emailId
      { e with status := Status.processing })]
  · intro s emailId e ns nf month t hid hrow hcl
    rw [processJob_err hid hrow hcl
      (Or.inl (rfl : acceptedId (ProviderResponse.resolved none) =
        Except.error "No message ID returned from Resend"))
      ns nf month t]
    exact ⟨setEmail_same _ _ _, rfl⟩

/-- Witness for C6: a resolved response with empty id drives the retry
path on the concrete pending email 7. -/
theorem C6_acceptance_by_id_witness :
    (processJob sampleDB 7 (ProviderResponse.resolved none)
        CommitOutcome.committed (Except.ok ()) (Except.ok ()) 0 0).2 =
      PipelineResult.thrown "No message ID returned from Resend" :=
  (C6_acceptance_by_id.2.2.2 sampleDB 7 sampleEmail (Except.ok ())
    (Except.ok ()) 0 0 (by decide) rfl (Or.inl rfl)).2

/-- C8: the pipeline's database effect and its result are entirely
independent of the webhook outcomes (the worker catches both webhook
calls and only logs); in particular a committed success still returns
cleanly under an always-failing notifier, and a redelivery of the
committed email is a clean no-op — the commit is never rolled back or
re-retried. -/
theorem C8_webhook_isolation :
    (∀ s emailId prov commit ns ns' nf nf' month t,
       processJob s emailId prov commit ns nf month t =
         processJob s emailId prov commit ns' nf' month t) ∧
    (∀ s emailId e mid emsg nf month t, emailId ≠ 0 →
       s.emails emailId = some e →
       (e.status = Status.pending ∨ e.status = Status.retrying) →
       mid ≠ "" →
       (processJob s emailId (ProviderResponse.resolved (some mid))
           CommitOutcome.committed (Except.error emsg) nf month t).2 =
         PipelineResult.cleanReturn) ∧
    (∀ s emailId e mid ns nf prov2 commit2 ns2 nf2 month t month2 t2,
       emailId ≠ 0 → s.emails emailId = some e →
       (e.status = Status.pending ∨ e.status = Status.retrying) →
       mid ≠ "" →
       processJob (processJob s emailId
           (ProviderResponse.resolved (some mid)) CommitOutcome.committed
           ns nf month t).1 emailId prov2 commit2 ns2 nf2 month2 t2 =
         ((processJob s emailId (ProviderResponse.resolved (some mid))
             CommitOutcome.committed ns nf month t).1,
          PipelineResult.cleanReturn)) := by
  refine ⟨?_, ?_, ?_⟩
  · intro s emailId prov commit ns ns' nf nf' month t
    unfold processJob
    by_cases hid : emailId = 0
    · rw [if_pos hid, if_pos hid]
    · rw [if_neg hid, if_neg hid]
      rcases hcl : claimEmail s emailId with ⟨s1, oe⟩
      cases oe with
      | none => rfl
      | some e =>
        dsimp only
        cases hacc : acceptedId prov with
        | ok mid =>
          dsimp only
          cases commit with
          | committed => cases ns <;> cases ns' <;> rfl
          | aborted msg =>
            dsimp only
            rw [failurePath_eq s1 e emailId msg nf,
              failurePath_eq s1 e emailId msg nf']
        | error msg =>
          dsimp only
          rw [failurePath_eq s1 e emailId msg nf,
            failurePath_eq s1 e emailId msg nf']
  · intro s emailId e mid emsg nf month t hid hrow hcl hmid
    rw [processJob_success hid hrow hcl hmid (Except.error emsg) nf month t]
  · intro s emailId e mid ns nf prov2 commit2 ns2 nf2 month t month2 t2
      hid hrow hcl hmid
    rw [processJob_success hid hrow hcl hmid ns nf month t]
    have hrow2 : (successCommit
        (setEmail s emailId { e with status := Status.processing })
        e.account_id emailId mid month t).emails emailId =
      some { e with status := Status.sent
                    provider_message_id := some mid
                    sent_at := some t } := by
      rw [successCommit_row e.account_id mid month t (setEmail_same s emailId
        { e with status := Status.processing })]
    exact processJob_noop hid hrow2 (by intro hc; exact Status.noConfusion hc)
      (by intro hc; exact Status.noConfusion hc) prov2 commit2 ns2 nf2
      month2 t2

/-- Witness for C8: with an always-failing notifier, the committed success
on email 7 still returns cleanly. -/
theorem C8_webhook_isolation_witness :
    (processJob sampleDB 7 (ProviderResponse.resolved (some "mid-7"))
        CommitOutcome.committed (Except.error "webhook down")
        (Except.error "webhook down") 3 4).2 =
      PipelineResult.cleanReturn :=
  C8_webhook_isolation.2.1 sampleDB 7 sampleEmail "mid-7" "webhook down"
    (Except.error "webhook down") 3 4 (by decide) rfl (Or.inl rfl)
    (by decide)

/-- C10: the success commit rewrites only `status`, `provider_message_id`
and `sent_at` of the claimed row — `attempts`, `last_error` and all
payload fields are carried over unchanged (so a successful attempt never
increments `attempts`) — and no other email row is touched; the same
holds for the whole success-path invocation. -/
theorem C10_success_commit_frame :
    (∀ s accId emailId mid month t j, j ≠ emailId →
       (successCommit s accId emailId mid month t).emails j = s.emails j) ∧
    (∀ s accId emailId mid month t e, s.emails emailId = some e →
       (successCommit s accId emailId mid month t).emails emailId =
         some { e with status := Status.sent
                       provider_message_id := some mid
                       sent_at := some t }) ∧
    (∀ s emailId e mid ns nf month t, emailId ≠ 0 →
       s.emails emailId = some e →
       (e.status = Status.pending ∨ e.status = Status.retrying) →
       mid ≠ "" →
       (processJob s emailId (ProviderResponse.resolved (some mid))
           CommitOutcome.committed ns nf month t).1.emails emailId =
         some { e with status := Status.sent
                       provider_message_id := some mid
                       sent_at := some t } ∧
       (∀ j, j ≠ emailId →
          (processJob s emailId (ProviderResponse.resolved (some mid))
              CommitOutcome.committed ns nf month t).1.emails j =
            s.emails j)) := by
  refine ⟨?_, ?_, ?_⟩
  · intro s accId emailId mid month t j hj
    exact successCommit_other s accId emailId mid month t j hj
  · intro s accId emailId mid month t e hrow
    exact successCommit_row accId mid month t hrow
  · intro s emailId e mid ns nf month t hid hrow hcl hmid
    rw [processJob_success hid hrow hcl hmid ns nf month t]
    constructor
    · rw [successCommit_row e.account_id mid month t (setEmail_same s emailId
        { e with status := Status.processing })]
    · intro j hj
      rw [successCommit_other _ _ _ _ _ _ j hj,
        setEmail_other s emailId j _ hj]

/-- Witness for C10: committing email 7 leaves `attempts = 0` and the
payload unchanged, and row 8 untouched. -/
theorem C10_success_commit_frame_witness :
    (successCommit sampleDB 1 7 "mid-7" 3 4).emails 7 =
      some { sampleEmail with status := Status.sent
                              provider_message_id := some "mid-7"
                              sent_at := some 4 } ∧
    (successCommit sampleDB 1 7 "mid-7" 3 4).emails 8 = sampleDB.emails 8 :=
  ⟨C10_success_commit_frame.2.1 sampleDB 1 7 "mid-7" 3 4 sampleEmail rfl,
   C10_success_commit_frame.1 sampleDB 1 7 "mid-7" 3 4 8 (by decide)⟩

theorem retryFrom_ok {outcomes : Nat → FetchOutcome} {attempt : Nat}
    (h : postWebhook (outcomes attempt) = Except.ok ()) :
    sendWebhookRetryFrom outcomes attempt = (Except.ok (), []) := by
  unfold sendWebhookRetryFrom
  rw [h]

theorem retryFrom_last {outcomes : Nat → FetchOutcome} {attempt : Nat}
    {e : String} (hge : WEBHOOK_RETRY_DELAYS_MS.length ≤ attempt)
    (h : postWebhook (outcomes attempt) = Except.error e) :
    sendWebhookRetryFrom outcomes attempt = (Except.error e, []) := by
  unfold sendWebhookRetryFrom
  rw [h]
  dsimp only
  rw [if_pos hge]

theorem retryFrom_step {outcomes : Nat → FetchOutcome} {attempt : Nat}
    {e : String} (hlt : attempt < WEBHOOK_RETRY_DELAYS_MS.length)
    (h : postWebhook (outcomes attempt) = Except.error e) :
    sendWebhookRetryFrom outcomes attempt =
      ((sendWebhookRetryFrom outcomes (attempt + 1)).1,
        WEBHOOK_RETRY_DELAYS_MS.getD attempt 0 ::
          (sendWebhookRetryFrom outcomes (attempt + 1)).2) := by
  conv_lhs => rw [sendWebhookRetryFrom]
  rw [h]
  dsimp only
  rw [if_neg (not_le.mpr hlt)]

/-- Closed form of `sendWebhookWithRetry` over the four possible
attempts: first success wins, each retry sleeps the next fixed delay, and
after three failed attempts the fourth outcome is final. -/
theorem sendWebhookWithRetry_eq (outcomes : Nat → FetchOutcome) :
    sendWebhookWithRetry outcomes =
      match postWebhook (outcomes 0) with
      | Except.ok _ => (Except.ok (), ([] : List Nat))
      | Except.error _ =>
        match postWebhook (outcomes 1) with
        | Except.ok _ => (Except.ok (), [1000])
        | Except.error _ =>
          match postWebhook (outcomes 2) with
          | Except.ok _ => (Except.ok (), [1000, 2000])
          | Except.error _ =>
              (postWebhook (outcomes 3), [1000, 2000, 4000]) := by
  unfold sendWebhookWithRetry
  cases h0 : postWebhook (outcomes 0) with
  | ok u =>
    cases u
    rw [retryFrom_ok h0]
  | error e0 =>
    rw [retryFrom_step (by decide) h0]
    dsimp only
    cases h1 : postWebhook (outcomes 1) with
    | ok u =>
      cases u
      rw [retryFrom_ok h1]
      rfl
    | error e1 =>
      rw [retryFrom_step (by decide) h1]
      dsimp only
      cases h2 : postWebhook (outcomes 2) with
      | ok u =>
        cases u
        rw [retryFrom_ok h2]
        rfl
      | error e2 =>
        rw [retryFrom_step (by decide) h2]
        dsimp only
        cases h3 : postWebhook (outcomes 3) with
        | ok u =>
          cases u
          rw [retryFrom_ok h3]
          rfl
        | error e3 =>
          rw [retryFrom_last (by decide) h3]
          rfl

/-- C9: the notifier no-ops successfully when the account or its webhook
URL is absent (or empty, which is falsy); with a URL present it runs the
retry loop, whose per-attempt timeout constant is 5000 ms; an attempt
succeeds exactly on a 2xx response; at most 3 retries happen after the
first attempt, sleeping the fixed delays 1s, 2s, 4s in order; the first
successful attempt returns immediately; and once the first three attempts
have failed the fourth attempt's outcome — in particular its error — is
surfaced to the caller. -/
theorem C9_notifier_contract :
    WEBHOOK_TIMEOUT_MS = 5000 ∧
    WEBHOOK_RETRY_DELAYS_MS = [1000, 2000, 4000] ∧
    (∀ status, postWebhook (FetchOutcome.response status) = Except.ok () ↔
       (200 ≤ status ∧ status < 300)) ∧
    (∀ accounts accId outcomes,
       (accounts accId = none ∨
         (∃ a, accounts accId = some a ∧
            (a.webhook_url = none ∨ a.webhook_url = some ""))) →
       notifyWebhook accounts accId outcomes = (Except.ok (), [])) ∧
    (∀ accounts accId a url outcomes, accounts accId = some a →
       a.webhook_url = some url → url ≠ "" →
       notifyWebhook accounts accId outcomes =
         sendWebhookWithRetry outcomes) ∧
    (∀ outcomes, (sendWebhookWithRetry outcomes).2.length ≤ 3 ∧
       (sendWebhookWithRetry outcomes).2 =
         WEBHOOK_RETRY_DELAYS_MS.take
           (sendWebhookWithRetry outcomes).2.length) ∧
    (∀ outcomes k, k ≤ 3 →
       (∀ i, i < k → ∃ e, postWebhook (outcomes i) = Except.error e) →
       postWebhook (outcomes k) = Except.ok () →
       sendWebhookWithRetry outcomes =
         (Except.ok (), WEBHOOK_RETRY_DELAYS_MS.take k)) ∧
    (∀ outcomes,
       (∀ i, i ≤ 2 → ∃ e, postWebhook (outcomes i) = Except.error e) →
       sendWebhookWithRetry outcomes =
         (postWebhook (outcomes 3), WEBHOOK_RETRY_DELAYS_MS)) := by
  refine ⟨rfl, rfl, ?_, ?_, ?_, ?_, ?_, ?_⟩
  · intro status
    have hiff : responseOk status = true ↔ (200 ≤ status ∧ status < 300) := by
      unfold responseOk
      simp [Bool.and_eq_true]
    unfold postWebhook
    dsimp only
    by_cases hok : responseOk status = true
    · rw [if_pos hok]
      exact ⟨fun _ => hiff.mp hok, fun _ => rfl⟩
    · rw [if_neg hok]
      constructor
      · intro hc
        exact Except.noConfusion hc
      · intro hc
        exact absurd (hiff.mpr hc) hok
  · intro accounts accId outcomes hcase
    unfold notifyWebhook
    rcases hcase with hnone | ⟨a, hsome, hurl⟩
    · rw [hnone]
    · rw [hsome]
      dsimp only
      rcases hurl with hu | hu
      · rw [hu]
      · rw [hu]
        dsimp only
        rw [if_pos rfl]
  · intro accounts accId a url outcomes hacc hurl hne
    unfold notifyWebhook
    rw [hacc]
    dsimp only
    rw [hurl]
    dsimp only
    rw [if_neg hne]
  · intro outcomes
    rw [sendWebhookWithRetry_eq]
    cases h0 : postWebhook (outcomes 0) with
    | ok u => cases u; exact ⟨by dsimp only; decide, by dsimp only; rfl⟩
    | error e0 =>
      cases h1 : postWebhook (outcomes 1) with
      | ok u => cases u; exact ⟨by dsimp only; decide, by dsimp only; rfl⟩
      | error e1 =>
        cases h2 : postWebhook (outcomes 2) with
        | ok u => cases u; exact ⟨by dsimp only; decide, by dsimp only; rfl⟩
        | error e2 => exact ⟨by dsimp only; decide, by dsimp only; rfl⟩
  · intro outcomes k hk hfail hsucc
    have hcases : k = 0 ∨ k = 1 ∨ k = 2 ∨ k = 3 := by omega
    rw [sendWebhookWithRetry_eq]
    rcases hcases with h | h | h | h
    · subst h
      rw [hsucc]
      rfl
    · subst h
      obtain ⟨e0, he0⟩ := hfail 0 (by omega)
      rw [he0, hsucc]
      rfl
    · subst h
      obtain ⟨e0, he0⟩ := hfail 0 (by omega)
      obtain ⟨e1, he1⟩ := hfail 1 (by omega)
      rw [he0, he1, hsucc]
      rfl
    · subst h
      obtain ⟨e0, he0⟩ := hfail 0 (by omega)
      obtain ⟨e1, he1⟩ := hfail 1 (by omega)
      obtain ⟨e2, he2⟩ := hfail 2 (by omega)
      rw [he0, he1, he2, hsucc]
      rfl
  · intro outcomes hfail
    obtain ⟨e0, he0⟩ := hfail 0 (by omega)
    obtain ⟨e1, he1⟩ := hfail 1 (by omega)
    obtain ⟨e2, he2⟩ := hfail 2 (by omega)
    rw [sendWebhookWithRetry_eq, he0, he1, he2]
    rfl

/-- Witness for C9: account 1 has a URL so the loop runs, two 500s then a
204 succeed on the third attempt after sleeping 1s and 2s; account 2 has
no row so the notifier no-ops. -/
theorem C9_notifier_contract_witness :
    notifyWebhook sampleAccounts 1 sampleOutcomes =
      sendWebhookWithRetry sampleOutcomes ∧
    sendWebhookWithRetry sampleOutcomes =
      (Except.ok (), WEBHOOK_RETRY_DELAYS_MS.take 2) ∧
    notifyWebhook sampleAccounts 2 sampleOutcomes = (Except.ok (), []) :=
  ⟨C9_notifier_contract.2.2.2.2.1 sampleAccounts 1 ⟨some "https://hook.example"⟩
     "https://hook.example" sampleOutcomes rfl rfl (by decide),
   C9_notifier_contract.2.2.2.2.2.2.1 sampleOutcomes 2 (by decide)
     (fun i hi => by
       match i, hi with
       | 0, _ => exact ⟨"Webhook responded 500", rfl⟩
       | 1, _ => exact ⟨"Webhook responded 500", rfl⟩
       | n + 2, h => exact absurd h (by omega))
     rfl,
   C9_notifier_contract.2.2.2.1 sampleAccounts 2 sampleOutcomes
     (Or.inl rfl)⟩
